import Mathlib

/-!
Shallow embedding of the product-discovery pipeline implemented in
`src/agents/multi_agent_search.py` (repository `GREYXXX/aes-agents`).

Modelling conventions:
* Python strings are modelled as `List Char` (via `String.data`); `str.lower`
  is modelled for ASCII text (the source data is ASCII).
* Python floats are modelled as `ℚ`.  The rule-based scorer sums weights
  from \x7b0.3, 0.3, 0.2, 0.1, 0.1\x7d and compares against 0.7, 0.4, 0.3 and
  0.01; every reachable IEEE-double sum compares against those thresholds
  exactly as the rational sum does, so exact rationals are faithful on all
  of those decision points.  The price-match division is different: its
  result can straddle the 20-percent boundary depending on rounding, so
  there `roundDouble` models IEEE binary64 round-to-nearest-even after the
  parse and after each operation.
* Calls to the two external capabilities (text generation, web search) are
  modelled as oracle inputs.  A text-generation call that raises is an
  `Except.error`; the composite "call + `json.loads` + key lookup" of the
  query generator is one oracle returning `Except Unit (List String)`.
* Regex use in the source is limited to a handful of fixed patterns; each is
  embedded by a dedicated matcher with Python `re.search` semantics
  (leftmost position, greedy quantifiers; none of the patterns needs
  backtracking beyond what the matchers implement, as noted inline).
-/

deriving instance DecidableEq for Except

attribute [local semireducible] Rat.add Rat.mul Rat.inv Rat.sub Rat.ofScientific

namespace AesAgents

/-- Python exceptions that escape the embedded code. -/
inductive PyErr where
  | nameError
  deriving DecidableEq

/-- The `extracted_info` dict handed to the pipeline (keys read with
`dict.get(..., default)` in the source, hence plain defaulted fields). -/
structure Requirement where
  product_type : String := ""
  budget : String := ""
  location : String := ""
  special_requirements : List String := []
  brand : String := ""
  deriving DecidableEq

/-- One raw web-search hit (`title` / `url` / `description` / `source`). -/
structure RawHit where
  title : String := ""
  url : String := ""
  description : String := ""
  source : String := ""
  deriving DecidableEq

/-- A product dict as it flows through the pipeline.  Keys that are added
only by later stages are `Option` fields defaulting to `none`, mirroring a
Python dict that does not yet hold the key.  The nested
`additional_factors` dict is flattened into its three entries. -/
structure Product where
  name : String := ""
  price : String := ""
  url : String := ""
  source : String := ""
  description : String := ""
  key_specs : List (String × String) := []
  delivery_time : String := ""
  relevance_score : Option ℚ := none
  ranking_reason : Option String := none
  is_specific_product : Option Bool := none
  product_relevance : Option Bool := none
  price_match : Option Bool := none
  location_match : Option Bool := none
  requirements_match : Option Bool := none
  overall_quality : Option String := none
  is_estimated_price : Option Bool := none
  deriving DecidableEq

/-- ASCII model of Python `str.lower`. -/
def pyLower (s : List Char) : List Char := s.map Char.toLower

/-- ASCII model of Python `\s` / `str.strip` whitespace. -/
def isPySpace (c : Char) : Bool :=
  c == ' ' || c == '\t' || c == '\n' || c == '\r' || c == '\x0b' || c == '\x0c'

/-- Model of Python `str.strip()`. -/
def pyStrip (s : List Char) : List Char :=
  ((s.dropWhile isPySpace).reverse.dropWhile isPySpace).reverse

/-- Does `needle` occur at the head of `haystack`? -/
def headMatches : List Char → List Char → Bool
  | [], _ => true
  | _ :: _, [] => false
  | n :: ns, h :: hs => n == h && headMatches ns hs

/-- Model of the Python substring test `needle in haystack`
(`'' in s` is `True`, as in Python). -/
def pyIn (needle : List Char) : List Char → Bool
  | [] => headMatches needle []
  | c :: hs => headMatches needle (c :: hs) || pyIn needle hs

/-- Number of words of `len(s.split())`: maximal nonspace runs. -/
def wordCountAux : Bool → List Char → Nat
  | _, [] => 0
  | inRun, c :: cs =>
    if isPySpace c then wordCountAux false cs
    else (if inRun then 0 else 1) + wordCountAux true cs

/-- Model of `len(s.split())`. -/
def wordCount (s : List Char) : Nat := wordCountAux false s

/-- Character class `[A-Z0-9]`. -/
def isUpperOrDigit (c : Char) : Bool :=
  (decide ('A' ≤ c) && decide (c ≤ 'Z')) || c.isDigit

/-- Model of `re.search(pat4, s)` for a pattern of shape `[X]\x7b4,\x7d`:
some four consecutive characters all satisfy `pr`. -/
def hasRunOfFour (pr : Char → Bool) : List Char → Bool
  | a :: b :: c :: d :: rest =>
    (pr a && pr b && pr c && pr d) || hasRunOfFour pr (b :: c :: d :: rest)
  | _ => false

/-- Model of `re.sub(r'[^\d.]', '', s)`. -/
def keepDigitsDots (s : List Char) : List Char :=
  s.filter (fun c => c.isDigit || c == '.')

/-- Longest digit run at the head, and the remainder. -/
def parseDigits (cs : List Char) : List Char × List Char :=
  (cs.takeWhile Char.isDigit, cs.dropWhile Char.isDigit)

/-- Numeric value of a digit string. -/
def digitsToNat (ds : List Char) : Nat :=
  ds.foldl (fun n c => 10 * n + (c.toNat - '0'.toNat)) 0

/-- Model of Python `float(s)` on the strings the source feeds it: optional
sign, decimal digits with an optional fraction part and an optional
exponent.  (`inf`/`nan`/underscored literals are not modelled; no call site
in the embedded code receives them in the scenarios settled here.) -/
def pyFloat (s0 : List Char) : Option ℚ :=
  let s := pyStrip s0
  let sgn : ℚ := match s with
    | '-' :: _ => -1
    | _ => 1
  let s1 : List Char := match s with
    | '+' :: r => r
    | '-' :: r => r
    | r => r
  let (ip, r1) := parseDigits s1
  let (fp, r2) : List Char × List Char := match r1 with
    | '.' :: r => parseDigits r
    | r => ([], r)
  if ip.isEmpty && fp.isEmpty then none
  else
    let mant : ℚ := (digitsToNat ip : ℚ) + (digitsToNat fp : ℚ) / ((10 : ℚ) ^ fp.length)
    match r2 with
    | 'e' :: r | 'E' :: r =>
      let esgn : Int := match r with
        | '-' :: _ => -1
        | _ => 1
      let r' : List Char := match r with
        | '+' :: t => t
        | '-' :: t => t
        | t => t
      let (ed, r'') := parseDigits r'
      if ed.isEmpty || !r''.isEmpty then none
      else
        let e : Int := esgn * (digitsToNat ed : Int)
        some (sgn * (if 0 ≤ e then mant * (10 : ℚ) ^ e.toNat else mant / ((10 : ℚ) ^ (-e).toNat)))
    | [] => some (sgn * mant)
    | _ => none

/-- Stable descending insertion used to model Python
`sorted(xs, key=k, reverse=True)`: the new element goes after every element
with a strictly larger key and before the first element with a key less
than or equal to its own.  A stable sort by a total preorder is unique, so
this insertion sort coincides with the timsort the source calls. -/
def insertDesc (key : α → ℚ) (x : α) : List α → List α
  | [] => [x]
  | y :: ys => if key x < key y then y :: insertDesc key x ys else x :: y :: ys

/-- Model of `sorted(xs, key=k, reverse=True)` (stable, descending). -/
def pySortedDesc (key : α → ℚ) : List α → List α
  | [] => []
  | x :: xs => insertDesc key x (pySortedDesc key xs)

/-- The sort key `x.get("relevance_score", 0)` used by both ranking paths. -/
def prodScore (p : Product) : ℚ := p.relevance_score.getD 0

/-! ### Regex matchers for `InformationExtractionAgent`

Each amount pattern ends in `\d\x7b1,3\x7d(?:,\d\x7b3\x7d)*(?:\.\d\x7b2\x7d)?`.  Nothing
follows the amount inside any pattern and every later amount piece can match
the empty string, so greedy matching without backtracking is exact here. -/

/-- Greedy `(?:,\d\x7b3\x7d)*`: the consumed text and the remainder. -/
def takeCommaGroups : List Char → List Char × List Char
  | ',' :: a :: b :: c :: rest =>
    if a.isDigit && b.isDigit && c.isDigit then
      let (g, r) := takeCommaGroups rest
      (',' :: a :: b :: c :: g, r)
    else ([], ',' :: a :: b :: c :: rest)
  | cs => ([], cs)

/-- Greedy `(?:\.\d\x7b2\x7d)?`: the consumed text. -/
def takeFrac : List Char → List Char
  | '.' :: a :: b :: _ => if a.isDigit && b.isDigit then ['.', a, b] else []
  | _ => []

/-- Match `\d\x7b1,3\x7d(?:,\d\x7b3\x7d)*(?:\.\d\x7b2\x7d)?` at this position; returns the
matched amount text. -/
def matchAmountAt (cs : List Char) : Option (List Char) :=
  let ds := (cs.takeWhile Char.isDigit).take 3
  if ds.isEmpty then none
  else
    let (gs, r2) := takeCommaGroups (cs.drop ds.length)
    some (ds ++ gs ++ takeFrac r2)

/-- Consume a literal pattern prefix case-insensitively (`re.IGNORECASE`). -/
def dropCI : List Char → List Char → Option (List Char)
  | [], r => some r
  | _ :: _, [] => none
  | p :: ps, c :: rest => if p.toLower == c.toLower then dropCI ps rest else none

/-- Consume a literal pattern prefix exactly. -/
def dropExact : List Char → List Char → Option (List Char)
  | [], r => some r
  | _ :: _, [] => none
  | p :: ps, c :: rest => if p == c then dropExact ps rest else none

/-- Match `\$?<amount>` at this position, returning the amount group only.
If a `$` is present but no amount follows it, the no-`$` alternative would
have to match the amount at the `$` itself and fails too. -/
def matchOptDollarAmount : List Char → Option (List Char)
  | '$' :: r => matchAmountAt r
  | r => matchAmountAt r

/-- Match `<pre>\s*\$?(<amount>)` (prefix case-insensitive) at this
position.  `\s` never matches `$` or a digit, so greedy `\s*` is exact. -/
def matchPrefixedAmount (pre : List Char) (cs : List Char) : Option (List Char) :=
  match dropCI pre cs with
  | none => none
  | some r => matchOptDollarAmount (r.dropWhile isPySpace)

/-- Match `\$(<amount>)` at this position (pattern 2 of the price list). -/
def matchDollarAmount : List Char → Option (List Char)
  | '$' :: r => matchAmountAt r
  | _ => none

/-- Model of `re.search`: try the position matcher at every position, left
to right; the first success wins. -/
def scanFirst (m : List Char → Option α) : List Char → Option α
  | [] => m []
  | c :: cs =>
    match m (c :: cs) with
    | some r => some r
    | none => scanFirst m cs

/-- `InformationExtractionAgent._extract_price_with_patterns` (lines
143-160): six patterns tried in order over the whole text, first matching
pattern wins, group 1 is normalized to `"$<amount>"`. -/
def extract_price_with_patterns (text : List Char) : String :=
  match (scanFirst (matchPrefixedAmount ('A' :: 'U' :: 'D' :: [])) text) <|>
        (scanFirst matchDollarAmount text) <|>
        (scanFirst (matchPrefixedAmount ("Price:".data)) text) <|>
        (scanFirst (matchPrefixedAmount ("Cost:".data)) text) <|>
        (scanFirst (matchPrefixedAmount ("From".data)) text) <|>
        (scanFirst (matchPrefixedAmount ("Starting at".data)) text) with
  | some amt => String.mk ('$' :: amt)
  | none => "Price not specified"

/-- Match `\s*([^\n]+)` at this position with the source regex semantics:
greedy `\s*`, backtracking one whitespace character when the run is
followed by end-of-text or a newline so that `[^\n]+` still gets one
character. -/
def matchWsValue (r : List Char) : Option (List Char) :=
  let w := (r.takeWhile isPySpace).length
  let rest := r.drop w
  match rest.head? with
  | some c =>
    if c ≠ '\n' then some (rest.takeWhile (fun x => x != '\n'))
    else
      match ((r.take w).reverse.dropWhile (fun x => x == '\n')).head? with
      | some d => some [d]
      | none => none
  | none =>
    match ((r.take w).reverse.dropWhile (fun x => x == '\n')).head? with
    | some d => some [d]
    | none => none

/-- Match `<Key:>\s*([^\n]+)` (key case-insensitive) at this position. -/
def matchSpecValueAt (keyPat : List Char) (cs : List Char) : Option (List Char) :=
  match dropCI keyPat cs with
  | none => none
  | some r => matchWsValue r

/-- The fixed spec vocabulary of
`InformationExtractionAgent._extract_specs_with_patterns` (lines 162-183),
in source order. -/
def spec_patterns : List (String × String) :=
  [("brand", "Brand:"), ("model", "Model:"), ("color", "Color:"),
   ("size", "Size:"), ("weight", "Weight:"), ("dimensions", "Dimensions:"),
   ("warranty", "Warranty:"), ("condition", "Condition:")]

/-- `InformationExtractionAgent._extract_specs_with_patterns`: per-field
regex over the description, values stripped; dict insertion order is the
fixed pattern order. -/
def extract_specs_with_patterns (description : List Char) : List (String × String) :=
  spec_patterns.filterMap (fun kp =>
    match scanFirst (matchSpecValueAt kp.2.data) description with
    | some v => some (kp.1, String.mk (pyStrip v))
    | none => none)

/-- Match `<pre>\d+-\d+ days?` at this position and return the whole match
(the source returns `match.group(0)`). -/
def matchDayRange (pre : List Char) (cs : List Char) : Option (List Char) :=
  match dropExact pre cs with
  | none => none
  | some r =>
    let d1 := r.takeWhile Char.isDigit
    if d1.isEmpty then none
    else
      match r.drop d1.length with
      | '-' :: r2 =>
        let d2 := r2.takeWhile Char.isDigit
        if d2.isEmpty then none
        else
          match dropExact (" day".data) (r2.drop d2.length) with
          | some r3 =>
            let tail : List Char := match r3 with
              | 's' :: _ => ['s']
              | _ => []
            some (pre ++ d1 ++ ['-'] ++ d2 ++ " day".data ++ tail)
          | none => none
      | _ => none

/-- Match a literal pattern at this position, returning it (group 0). -/
def matchLit (lit : List Char) (cs : List Char) : Option (List Char) :=
  match dropExact lit cs with
  | none => none
  | some _ => some lit

/-- `InformationExtractionAgent._extract_delivery_time_with_patterns`
(lines 185-203): ordered pattern list over the lowercased description,
first match wins, `match.group(0)` returned. -/
def extract_delivery_time_with_patterns (description : List Char) : String :=
  let t := pyLower description
  match (scanFirst (matchDayRange ("delivery in ".data)) t) <|>
        (scanFirst (matchDayRange ("ships in ".data)) t) <|>
        (scanFirst (matchDayRange ("arrives in ".data)) t) <|>
        (scanFirst (matchLit ("express delivery".data)) t) <|>
        (scanFirst (matchLit ("next day delivery".data)) t) <|>
        (scanFirst (matchLit ("free shipping".data)) t) <|>
        (scanFirst (matchLit ("standard delivery".data)) t) <|>
        (scanFirst (matchLit ("priority delivery".data)) t) with
  | some g => String.mk g
  | none => "Delivery time not specified"

/-- `InformationExtractionAgent._extract_with_rules` (lines 117-141). -/
def extract_with_rules (r : RawHit) : Product :=
  { name := r.title,
    price := extract_price_with_patterns (r.description.data ++ ' ' :: r.title.data),
    url := r.url,
    source := r.source,
    description := r.description,
    key_specs := extract_specs_with_patterns r.description.data,
    delivery_time := extract_delivery_time_with_patterns r.description.data }

/-- `InformationExtractionAgent.extract_info` (lines 98-115) on the
rule-based path the pipeline uses (`use_llm` defaults to `False` at the
call site, line 578).  A record is kept only when both `name` and `url`
are truthy; `_extract_with_rules` raises nothing, so the per-hit
`except: continue` is unreachable on this path. -/
def extract_info (search_results : List RawHit) : List Product :=
  search_results.filterMap (fun r =>
    let p := extract_with_rules r
    if p.name ≠ "" ∧ p.url ≠ "" then some p else none)

/-! ### `ProductFilteringAndRankingAgent` (lines 268-499)

The rule-based evaluation (lines 365-479) is embedded one code block per
helper; `evalRules` assembles the `evaluation` record exactly as the
source does.  Nothing in the embedded per-product body can raise (the
fields are typed, the float failures are absorbed by the inner bare
`except`), so the per-product `except Exception: continue` is
unreachable. -/

/-- The `product_indicators` keyword list (lines 389-392). -/
def product_indicators : List String :=
  ["product", "item", "sku", "id", "p-", "prod-", "model-", "variant-",
   "model", "variant", "version", "edition", "series", "generation"]

/-- The `category_indicators` keyword list (lines 395-398). -/
def category_indicators : List String :=
  ["category", "collection", "list", "search", "results", "shop", "store",
   "browse", "all-", "products-", "items-", "laptops", "computers",
   "phones", "tablets"]

/-- Step 1 (lines 383-409).  Note that `url`, `name` and `description` are
lowercased first, so the `[A-Z0-9]\x7b4,\x7d` model-number search runs on the
lowercased name: only runs of four or more digits can still match. -/
def ruleIsSpecific (p : Product) : Bool :=
  let url := pyLower p.url.data
  let name := pyLower p.name.data
  let description := pyLower p.description.data
  let has_product_id := product_indicators.any (fun ind => pyIn ind.data url || pyIn ind.data name)
  let has_model_number := hasRunOfFour isUpperOrDigit name
  let has_specific_details := decide (wordCount name ≥ 4) && name.any Char.isDigit
  let is_category_page := category_indicators.any (fun ind =>
    pyIn ind.data url || pyIn ind.data name || pyIn ind.data description)
  !is_category_page && (has_product_id || has_model_number || has_specific_details)

/-- Step 2, product relevance (lines 411-418). -/
def ruleRelevance (req : Requirement) (p : Product) : Bool :=
  let name := pyLower p.name.data
  let description := pyLower p.description.data
  let product_type := pyLower req.product_type.data
  let brand := pyLower req.brand.data
  let type_match := pyIn product_type name || pyIn product_type description
  let brand_match := brand.isEmpty || pyIn brand name || pyIn brand description
  type_match && brand_match

/-- Fuel-counted floor of the base-two logarithm (enough fuel is the
number itself; the recursion halves the argument each step). -/
def natLog2F : Nat → Nat → Nat
  | 0, _ => 0
  | fuel + 1, n => if 2 ≤ n then natLog2F fuel (n / 2) + 1 else 0

/-- Round a positive rational to the nearest IEEE binary64 value, ties to
even.  The result exponent is assumed to stay in the normal range, which
holds for every price, budget and quotient the embedded code meets (no
overflow, no subnormals). -/
def roundPos (q : ℚ) : ℚ :=
  let n := q.num.natAbs
  let d := q.den
  let e0 : Int := (natLog2F n n : Int) - (natLog2F d d : Int)
  let ge : Int → Bool := fun e =>
    if 0 ≤ e then decide (d * 2 ^ e.toNat ≤ n) else decide (d ≤ n * 2 ^ (-e).toNat)
  let e : Int := if ge e0 then e0 else e0 - 1
  let s : Int := 52 - e
  let P : Nat := if 0 ≤ s then n * 2 ^ s.toNat else n
  let R : Nat := if 0 ≤ s then d else d * 2 ^ (-s).toNat
  let m0 := P / R
  let r := P % R
  let m : Nat :=
    if 2 * r < R then m0
    else if R < 2 * r then m0 + 1
    else if m0 % 2 = 0 then m0 else m0 + 1
  if 0 ≤ e - 52 then ((m * 2 ^ (e - 52).toNat : Nat) : ℚ)
  else (m : ℚ) / ((2 : ℚ) ^ (52 - e).toNat)

/-- The exact value of the IEEE binary64 double nearest to `q` (round to
nearest, ties to even; normal range assumed).  This is what Python's
`float` parsing and each arithmetic operation produce. -/
def roundDouble (q : ℚ) : ℚ :=
  if q = 0 then 0
  else if q < 0 then -roundPos (-q)
  else roundPos q

/-- Step 3, price match (lines 420-429).  The source computes
`abs(product_price - budget_value) / budget_value <= 0.2` in IEEE
binary64 doubles, so the embedding rounds the parsed operands, the
difference and the quotient to the nearest double (`abs` is exact on
doubles) and compares against the double nearest `0.2`.  Parse failures
and a zero budget (`ZeroDivisionError`) are absorbed by the bare
`except: pass`, leaving the flag `False`. -/
def rulePriceMatch (req : Requirement) (p : Product) : Bool :=
  if req.budget ≠ "" ∧ p.price ≠ "Price not specified" then
    match pyFloat (keepDigitsDots p.price.data), pyFloat (keepDigitsDots req.budget.data) with
    | some pp, some bv =>
      let product_price := roundDouble pp
      let budget_value := roundDouble bv
      if budget_value = 0 then false
      else decide (roundDouble (|product_price - budget_value| / budget_value) ≤
        roundDouble (2/10))
    | _, _ => false
  else false

/-- Step 4a, location match (lines 431-435). -/
def ruleLocationMatch (req : Requirement) (p : Product) : Bool :=
  let location := pyLower req.location.data
  location.isEmpty || pyIn location (pyLower p.description.data)

/-- Step 4b, special-requirements match (lines 436-439). -/
def ruleReqsMatch (req : Requirement) (p : Product) : Bool :=
  req.special_requirements.all (fun r =>
    pyIn (pyLower r.data) (pyLower p.name.data) ||
    pyIn (pyLower r.data) (pyLower p.description.data))

/-- The weighted quality score (lines 442-448). -/
def ruleScore (req : Requirement) (p : Product) : ℚ :=
  (if ruleIsSpecific p then 3/10 else 0) +
  (if ruleRelevance req p then 3/10 else 0) +
  (if rulePriceMatch req p then 2/10 else 0) +
  (if ruleLocationMatch req p then 1/10 else 0) +
  (if ruleReqsMatch req p then 1/10 else 0)

/-- `overall_quality` (lines 450-454). -/
def ruleTier (req : Requirement) (p : Product) : String :=
  if ruleScore req p ≥ 7/10 then "high"
  else if ruleScore req p ≥ 4/10 then "medium"
  else "low"

/-- `_generate_ranking_reason` (lines 481-499). -/
def rankingReason (req : Requirement) (p : Product) : String :=
  String.intercalate ", "
    ((if ruleIsSpecific p then ["specific product page"] else []) ++
     (if ruleRelevance req p then ["matches product requirements"] else []) ++
     (if rulePriceMatch req p then ["price within budget range"] else []) ++
     (if ruleLocationMatch req p then ["available in specified location"] else []) ++
     (if ruleReqsMatch req p then ["meets special requirements"] else []) ++
     ["overall quality: " ++ ruleTier req p])

/-- The `product.update(...)` of lines 460-467. -/
def applyRuleEval (req : Requirement) (p : Product) : Product :=
  { p with
    relevance_score := some (ruleScore req p),
    ranking_reason := some (rankingReason req p),
    is_specific_product := some (ruleIsSpecific p),
    product_relevance := some (ruleRelevance req p),
    price_match := some (rulePriceMatch req p),
    location_match := some (ruleLocationMatch req p),
    requirements_match := some (ruleReqsMatch req p),
    overall_quality := some (ruleTier req p) }

/-- The retention test of lines 470-472. -/
def ruleRetain (req : Requirement) (p : Product) : Prop :=
  ruleIsSpecific p = true ∧ ruleRelevance req p = true ∧ ruleScore req p ≥ 3/10

instance (req : Requirement) (p : Product) : Decidable (ruleRetain req p) := by
  unfold ruleRetain
  infer_instance

/-- `_filter_and_rank_with_rules` (lines 365-479): evaluate and update
every product, keep the ones passing the retention test, sort by score
descending (stable). -/
def filterRankRules (req : Requirement) (products : List Product) : List Product :=
  pySortedDesc prodScore
    (products.filterMap (fun p =>
      if ruleRetain req p then some (applyRuleEval req p) else none))

/-- One assisted scoring step of `_filter_and_rank_with_llm` (lines
320-350): the oracle stands for `generate_completion` on the per-product
prompt; an `Except.error` is the capability raising, absorbed by the
per-product `except Exception: continue`; an unparsable response is the
`ValueError` branch (`continue`); an out-of-range score is silently not
appended. -/
def llmScoreStep (scoreOracle : Product → Except Unit String) (p : Product) : Option Product :=
  match scoreOracle p with
  | .error _ => none
  | .ok response =>
    match pyFloat (pyStrip response.data) with
    | none => none
    | some score =>
      if 0 ≤ score ∧ score ≤ 1 then some { p with relevance_score := some score } else none

/-- `_filter_and_rank_with_llm` (lines 282-363).  The batching (line 314)
only slices the same loop and has no semantic effect.  Every modelled
exception source sits inside the per-product handler, so the outer
`except` that would fall back to `_filter_and_rank_with_rules` (line 363)
is unreachable in the embedding. -/
def filterRankLLM (scoreOracle : Product → Except Unit String) (products : List Product) : List Product :=
  let scored := products.filterMap (llmScoreStep scoreOracle)
  let filtered := scored.filter (fun p => decide (prodScore p ≥ 1/100))
  pySortedDesc prodScore filtered

/-- `ProductFilteringAndRankingAgent.filter_and_rank` (lines 272-280). -/
def filter_and_rank (scoreOracle : Product → Except Unit String) (products : List Product)
    (requirements : Requirement) (use_llm : Bool) : List Product :=
  if products.isEmpty then []
  else if use_llm then filterRankLLM scoreOracle products
  else filterRankRules requirements products

/-! ### `SearchQueryGeneratorAgent` (lines 19-80) -/

/-- The deterministic fallback query of lines 76 and 80. -/
def fallback_query (product_type : String) : String :=
  product_type ++ " site:ebay.com.au OR site:amazon.com.au OR site:gumtree.com.au"

/-- `SearchQueryGeneratorAgent.generate_queries` (lines 23-80).  The
oracle stands for the composite `generate_completion` + `json.loads` +
`result.get("queries", [])`: `Except.error` is any exception from that
composite.  The source then has two slips: on an empty query list the
fallback is assigned to `all_queries` but the (empty) `llm_queries` is
returned, and the `except` handler returns the undefined name
`base_queries`, which raises `NameError` out of the function. -/
def generate_queries (qOracle : Except Unit (List String)) (info : Requirement) :
    Except PyErr (List String) :=
  let product_type := String.mk (pyLower info.product_type.data)
  match qOracle with
  | .ok llm_queries =>
    if llm_queries.isEmpty then
      let _all_queries := [fallback_query product_type]
      .ok llm_queries
    else .ok llm_queries
  | .error _ => .error PyErr.nameError

/-- `WebSearchAgent.search` (lines 82-92): one provider call per query
with `count=5`, results concatenated in query order. -/
def web_search (provider : String → Nat → List RawHit) (queries : List String) : List RawHit :=
  queries.flatMap (fun query => provider query 5)

/-! ### `MultiAgentProductSearch` (lines 559-632) -/

/-- Normalization of the estimated price (lines 620-622). -/
def normalizeDollar (tok : List Char) : String :=
  match tok with
  | '$' :: _ => String.mk tok
  | _ => String.mk ('$' :: tok)

/-- Match `\$?\d\x7b1,3\x7d(?:,\d\x7b3\x7d)*(?:\.\d\x7b2\x7d)?` at this position, returning
group 0 (line 618). -/
def matchCurrencyToken : List Char → Option (List Char)
  | '$' :: r => (matchAmountAt r).map (fun a => '$' :: a)
  | r => matchAmountAt r

/-- One step of `_estimate_missing_prices` (lines 591-631) for a single
product; the oracle stands for the estimation `generate_completion`
call. -/
def estimateStep (estOracle : Product → Except Unit String) (p : Product) : Product :=
  if p.price = "Price not specified" then
    match estOracle p with
    | .ok response =>
      match scanFirst matchCurrencyToken response.data with
      | some tok => { p with price := normalizeDollar tok, is_estimated_price := some true }
      | none => { p with price := "Price not available" }
    | .error _ => { p with price := "Price not available" }
  else p

/-- `MultiAgentProductSearch._estimate_missing_prices` (lines 589-632):
an in-place pass over the list, returned unchanged in length and order. -/
def estimate_missing_prices (estOracle : Product → Except Unit String)
    (products : List Product) : List Product :=
  products.map (estimateStep estOracle)

/-- The external collaborators of one pipeline run. -/
structure Oracles where
  queryGen : Except Unit (List String)
  provider : String → Nat → List RawHit
  score : Product → Except Unit String
  estimate : Product → Except Unit String

/-- `MultiAgentProductSearch.search` (lines 568-587): query generation,
web search, rule-based extraction, assisted filter-and-rank
(`use_llm=True` at line 581), price estimation, then the top five.  A
`NameError` escaping `generate_queries` propagates to the caller. -/
def pipeline_search (o : Oracles) (extracted_info : Requirement) :
    Except PyErr (List Product) :=
  match generate_queries o.queryGen extracted_info with
  | .error e => .error e
  | .ok queries =>
    let search_results := web_search o.provider queries
    let extracted_products := extract_info search_results
    let ranked_products := filter_and_rank o.score extracted_products extracted_info true
    let products_with_prices := estimate_missing_prices o.estimate ranked_products
    .ok (products_with_prices.take 5)

/-! ### Lemmas about the stable descending sort -/

theorem mem_insertDesc (key : α → ℚ) (x a : α) (l : List α) :
    a ∈ insertDesc key x l ↔ a = x ∨ a ∈ l := by
  induction l with
  | nil => simp [insertDesc]
  | cons y ys ih =>
    unfold insertDesc
    split
    · simp only [List.mem_cons, ih]
      tauto
    · simp only [List.mem_cons]

theorem mem_pySortedDesc (key : α → ℚ) (a : α) (l : List α) :
    a ∈ pySortedDesc key l ↔ a ∈ l := by
  induction l with
  | nil => simp [pySortedDesc]
  | cons x xs ih =>
    unfold pySortedDesc
    rw [mem_insertDesc]
    simp only [List.mem_cons, ih]

theorem insertDesc_pairwise (key : α → ℚ) (x : α) (l : List α)
    (h : l.Pairwise (fun a b => key b ≤ key a)) :
    (insertDesc key x l).Pairwise (fun a b => key b ≤ key a) := by
  induction l with
  | nil => simp [insertDesc]
  | cons y ys ih =>
    unfold insertDesc
    split
    · rename_i hlt
      rw [List.pairwise_cons] at h ⊢
      refine ⟨fun z hz => ?_, ih h.2⟩
      rcases (mem_insertDesc key x z ys).1 hz with hzx | hzys
      · exact hzx ▸ le_of_lt hlt
      · exact h.1 z hzys
    · rename_i hge
      rw [List.pairwise_cons]
      refine ⟨fun z hz => ?_, h⟩
      rcases List.mem_cons.1 hz with hzy | hzys
      · exact hzy ▸ le_of_not_lt hge
      · exact le_trans ((List.pairwise_cons.1 h).1 z hzys) (le_of_not_lt hge)

theorem pySortedDesc_pairwise (key : α → ℚ) (l : List α) :
    (pySortedDesc key l).Pairwise (fun a b => key b ≤ key a) := by
  induction l with
  | nil => exact List.Pairwise.nil
  | cons x xs ih => exact insertDesc_pairwise key x _ ih

theorem filter_insertDesc (key : α → ℚ) (x : α) (q : ℚ) (l : List α) :
    (insertDesc key x l).filter (fun a => key a == q) =
      if key x = q then x :: l.filter (fun a => key a == q)
      else l.filter (fun a => key a == q) := by
  induction l with
  | nil => by_cases hx : key x = q <;> simp [insertDesc, hx]
  | cons y ys ih =>
    unfold insertDesc
    split
    · rename_i hlt
      by_cases hx : key x = q
      · have hy : key y ≠ q := by
          intro hyq
          rw [hx, hyq] at hlt
          exact lt_irrefl q hlt
        simp [List.filter_cons, hx, hy, ih]
      · by_cases hy : key y = q <;> simp [List.filter_cons, hx, hy, ih]
    · by_cases hx : key x = q <;> by_cases hy : key y = q <;>
        simp [List.filter_cons, hx, hy]

theorem filter_pySortedDesc (key : α → ℚ) (q : ℚ) (l : List α) :
    (pySortedDesc key l).filter (fun a => key a == q) =
      l.filter (fun a => key a == q) := by
  induction l with
  | nil => rfl
  | cons x xs ih =>
    unfold pySortedDesc
    rw [filter_insertDesc, ih]
    by_cases hx : key x = q <;> simp [List.filter_cons, hx]

/-! ### Claim C1 -/

/-- C1: the claim says `generate_queries` never raises and never returns an
empty list, silently substituting the deterministic fallback query.  The
code contradicts this intent in both failure branches: when the assisted
call yields an empty query list the fallback is assigned to the unused
variable `all_queries` while the empty `llm_queries` is returned, and when
the assisted call raises, the handler evaluates the undefined name
`base_queries`, so a `NameError` escapes to the caller.  This theorem
evaluates the embedded code at both failing inputs. -/
theorem C1_generate_queries_failure_paths :
    generate_queries (Except.ok []) { product_type := "laptop" } = Except.ok [] ∧
    generate_queries (Except.error ()) { product_type := "laptop" } =
      Except.error PyErr.nameError :=
  ⟨rfl, rfl⟩

/-! ### Claim C2 -/

/-- A raw hit that survives extraction and assisted ranking. -/
def c2hit : RawHit :=
  { title := "iphone 15 pro max 256", url := "https://x.au/a",
    description := "great $999.99 deal", source := "x" }

/-- A run in which the web-search capability returns the same URL twice. -/
def c2oracles : Oracles :=
  { queryGen := Except.ok ["q"],
    provider := fun _ _ => [c2hit, c2hit],
    score := fun _ => Except.ok "0.9",
    estimate := fun _ => Except.ok "" }

def c2req : Requirement := { product_type := "iphone" }

/-- The value a successful pipeline run returns. -/
def okD (e : Except PyErr (List Product)) : List Product :=
  match e with
  | .ok l => l
  | .error _ => []

/-- C2 counterexample: no stage of `MultiAgentProductSearch.search`
deduplicates by URL, so a run whose search capability reports the same URL
twice returns two products with the same url, refuting the claimed
invariant. -/
theorem C2_counterexample_duplicate_urls :
    ¬ (∀ out, pipeline_search c2oracles c2req = Except.ok out →
        out.Pairwise (fun a b => a.url ≠ b.url)) := by
  intro h
  have h2 := h (okD (pipeline_search c2oracles c2req)) (by decide)
  revert h2
  decide

/-- C2 amended: no URL-based deduplication is performed at any stage; each
hit is extracted and ranked independently, so the returned result set can
contain several products sharing one url.  Witnessed by the duplicated
URL list of the concrete run above. -/
theorem C2_amended_no_dedup :
    (pipeline_search c2oracles c2req).map (List.map Product.url) =
      Except.ok ["https://x.au/a", "https://x.au/a"] := by
  decide

/-! ### Claim C3 -/

def c3p1 : Product := { name := "aaaa", price := "Price not specified", url := "u1" }

def c3p2 : Product := { name := "bbbb", price := "Price not specified", url := "u2" }

/-- A scoring capability that raises on the first product and answers
`"0.5"` on the second. -/
def c3oracle : Product → Except Unit String :=
  fun p => if p.url = "u1" then Except.error () else Except.ok "0.5"

def c3req : Requirement := { product_type := "iphone" }

/-- C3 counterexample: the capability raises for `c3p1`, yet the assisted
pass is not aborted — `c3p2` keeps its assisted score and the output
differs from the rule-based strategy run on the full input (which retains
nothing here).  The per-product `except Exception: continue` at line 348
absorbs capability exceptions, so the wholesale fallback at line 363 never
triggers for them. -/
theorem C3_counterexample_no_wholesale_fallback :
    c3oracle c3p1 = Except.error () ∧
    filterRankLLM c3oracle [c3p1, c3p2] ≠ filterRankRules c3req [c3p1, c3p2] := by
  constructor
  · rfl
  · decide

theorem filterMap_of_none {f : α → Option β} {pr : α → Bool}
    (h : ∀ a, pr a = false → f a = none) :
    ∀ l : List α, l.filterMap f = (l.filter pr).filterMap f := by
  intro l
  induction l with
  | nil => rfl
  | cons x xs ih =>
    by_cases hx : pr x = true
    · simp [List.filterMap_cons, List.filter_cons, hx, ih]
    · have hnone := h x (by simpa using hx)
      simp [List.filterMap_cons, List.filter_cons, hx, hnone, ih]

/-- C3 amended: a capability exception during the assisted pass drops only
the affected item and the pass continues; the partial assisted results are
kept, and the output equals the assisted pass run on just the items whose
capability calls succeed.  The rule-based strategy is not re-executed. -/
theorem C3_amended_per_item_drop
    (scoreOracle : Product → Except Unit String) (products : List Product) :
    filterRankLLM scoreOracle products =
      filterRankLLM scoreOracle
        (products.filter (fun p => (scoreOracle p).toBool)) := by
  unfold filterRankLLM
  have h : ∀ p : Product, (scoreOracle p).toBool = false →
      llmScoreStep scoreOracle p = none := by
    intro p hp
    unfold llmScoreStep
    cases hor : scoreOracle p with
    | error e => rfl
    | ok r => rw [hor] at hp; exact absurd hp (by simp [Except.toBool, Except.isOk])
  rw [filterMap_of_none h products]

/-! ### Claim C4 -/

theorem ruleTier_high_iff (req : Requirement) (p : Product) :
    ruleTier req p = "high" ↔ 7/10 ≤ ruleScore req p := by
  unfold ruleTier
  split
  · rename_i h1
    simpa using h1
  · rename_i h1
    split <;> simp [h1]

theorem ruleTier_medium_iff (req : Requirement) (p : Product) :
    ruleTier req p = "medium" ↔ 4/10 ≤ ruleScore req p ∧ ruleScore req p < 7/10 := by
  unfold ruleTier
  split
  · rename_i h1
    simp only [ge_iff_le] at h1
    constructor
    · intro h
      exact absurd h (by decide)
    · intro h
      exact absurd h1 (not_le.mpr h.2)
  · rename_i h1
    simp only [ge_iff_le, not_le] at h1
    split
    · rename_i h2
      simp only [ge_iff_le] at h2
      simp [h2, h1]
    · rename_i h2
      simp only [ge_iff_le, not_le] at h2
      constructor
      · intro h
        exact absurd h (by decide)
      · intro h
        exact absurd h2 (not_lt.mpr h.1)

theorem ruleTier_low_iff (req : Requirement) (p : Product) :
    ruleTier req p = "low" ↔ ruleScore req p < 4/10 := by
  unfold ruleTier
  split
  · rename_i h1
    simp only [ge_iff_le] at h1
    constructor
    · intro h
      exact absurd h (by decide)
    · intro h
      exact absurd h (not_lt.mpr (le_trans (by norm_num) h1))
  · rename_i h1
    split
    · rename_i h2
      simp only [ge_iff_le] at h2
      constructor
      · intro h
        exact absurd h (by decide)
      · intro h
        exact absurd h (not_lt.mpr h2)
    · rename_i h2
      simp only [ge_iff_le, not_le] at h2
      simp [h2]

theorem ruleScore_bounds (req : Requirement) (p : Product) :
    0 ≤ ruleScore req p ∧ ruleScore req p ≤ 1 := by
  have key : ∀ b1 b2 b3 b4 b5 : Bool,
      0 ≤ ((if b1 then (3:ℚ)/10 else 0) + (if b2 then (3:ℚ)/10 else 0) +
           (if b3 then (2:ℚ)/10 else 0) + (if b4 then (1:ℚ)/10 else 0) +
           (if b5 then (1:ℚ)/10 else 0)) ∧
      ((if b1 then (3:ℚ)/10 else 0) + (if b2 then (3:ℚ)/10 else 0) +
       (if b3 then (2:ℚ)/10 else 0) + (if b4 then (1:ℚ)/10 else 0) +
       (if b5 then (1:ℚ)/10 else 0)) ≤ 1 := by decide
  exact key (ruleIsSpecific p) (ruleRelevance req p) (rulePriceMatch req p)
    (ruleLocationMatch req p) (ruleReqsMatch req p)

theorem mem_filterRankRules (req : Requirement) (ps : List Product) (q : Product) :
    q ∈ filterRankRules req ps ↔
      ∃ p, p ∈ ps ∧ q = applyRuleEval req p ∧
        ruleIsSpecific p = true ∧ ruleRelevance req p = true ∧
        ruleScore req p ≥ 3/10 := by
  simp only [filterRankRules, mem_pySortedDesc, List.mem_filterMap]
  constructor
  · rintro ⟨p, hp, hf⟩
    by_cases hc : ruleRetain req p
    · rw [if_pos hc] at hf
      obtain ⟨h1, h2, h3⟩ := hc
      exact ⟨p, hp, (Option.some.inj hf).symm, h1, h2, h3⟩
    · rw [if_neg hc] at hf
      exact absurd hf (by simp)
  · rintro ⟨p, hp, rfl, h1, h2, h3⟩
    exact ⟨p, hp, by rw [if_pos ⟨h1, h2, h3⟩]⟩

/-- C4: on the rule-based path every evaluated product gets
`relevance_score` equal to the weighted sum of its five recorded
criteria flags with weights 0.3/0.3/0.2/0.1/0.1 (hence a score in
`[0, 1]`); the recorded quality tier is `high` iff the score is at least
0.7, `medium` iff it is in `[0.4, 0.7)`, and `low` otherwise; and a
product is in the output of `_filter_and_rank_with_rules` iff it is the
evaluated form of an input product whose specific-product and relevance
flags are both true and whose score is at least 0.3. -/
theorem C4_rule_scoring_and_retention :
    (∀ (req : Requirement) (p : Product),
      (applyRuleEval req p).relevance_score =
        some ((if (applyRuleEval req p).is_specific_product = some true then (3:ℚ)/10 else 0) +
              (if (applyRuleEval req p).product_relevance = some true then (3:ℚ)/10 else 0) +
              (if (applyRuleEval req p).price_match = some true then (2:ℚ)/10 else 0) +
              (if (applyRuleEval req p).location_match = some true then (1:ℚ)/10 else 0) +
              (if (applyRuleEval req p).requirements_match = some true then (1:ℚ)/10 else 0)) ∧
      0 ≤ ruleScore req p ∧ ruleScore req p ≤ 1 ∧
      ((applyRuleEval req p).overall_quality = some "high" ↔ 7/10 ≤ ruleScore req p) ∧
      ((applyRuleEval req p).overall_quality = some "medium" ↔
        4/10 ≤ ruleScore req p ∧ ruleScore req p < 7/10) ∧
      ((applyRuleEval req p).overall_quality = some "low" ↔ ruleScore req p < 4/10)) ∧
    (∀ (req : Requirement) (ps : List Product) (q : Product),
      q ∈ filterRankRules req ps ↔
        ∃ p, p ∈ ps ∧ q = applyRuleEval req p ∧
          ruleIsSpecific p = true ∧ ruleRelevance req p = true ∧
          ruleScore req p ≥ 3/10) := by
  constructor
  · intro req p
    refine ⟨?_, (ruleScore_bounds req p).1, (ruleScore_bounds req p).2, ?_, ?_, ?_⟩
    · simp only [applyRuleEval, Option.some.injEq, ruleScore]
    · simpa [applyRuleEval] using ruleTier_high_iff req p
    · simpa [applyRuleEval] using ruleTier_medium_iff req p
    · simpa [applyRuleEval] using ruleTier_low_iff req p
  · exact mem_filterRankRules

def c4wreq : Requirement := { product_type := "item" }

def c4wp : Product := { name := "good item 1234 thing", url := "u" }

/-- C4 witness at a concrete product and requirement. -/
theorem C4_witness :
    (0 ≤ ruleScore c4wreq c4wp ∧
      ((applyRuleEval c4wreq c4wp).overall_quality = some "high" ↔
        7/10 ≤ ruleScore c4wreq c4wp)) ∧
    (applyRuleEval c4wreq c4wp ∈ filterRankRules c4wreq [c4wp]) := by
  constructor
  · exact ⟨(C4_rule_scoring_and_retention.1 c4wreq c4wp).2.1,
      (C4_rule_scoring_and_retention.1 c4wreq c4wp).2.2.2.1⟩
  · exact (C4_rule_scoring_and_retention.2 c4wreq [c4wp] (applyRuleEval c4wreq c4wp)).mpr
      ⟨c4wp, by simp, rfl, by decide, by decide, by decide⟩

/-! ### Claim C5 -/

/-- The specific-product predicate written from the words of claim C5: no
category keyword in url/name/description, and at least one of a
product-identifier keyword in url or name, a four-character-or-longer
uppercase-alphanumeric token in the name as given, or a name of at least
four words containing a digit. -/
def claimIsSpecificProduct (p : Product) : Bool :=
  let url := pyLower p.url.data
  let name := pyLower p.name.data
  let description := pyLower p.description.data
  let keywordHit := product_indicators.any (fun ind => pyIn ind.data url || pyIn ind.data name)
  let upperToken := hasRunOfFour isUpperOrDigit p.name.data
  let wordy := decide (wordCount p.name.data ≥ 4) && p.name.data.any Char.isDigit
  let categoryHit := category_indicators.any (fun ind =>
    pyIn ind.data url || pyIn ind.data name || pyIn ind.data description)
  !categoryHit && (keywordHit || upperToken || wordy)

def c5p : Product := { name := "ABCD", url := "x" }

/-- C5 counterexample: the source lowercases the name before running the
`[A-Z0-9]\x7b4,\x7d` model-number search (line 384 before line 402), so a name
whose only specific-product evidence is an uppercase token, such as
`"ABCD"`, satisfies the claimed predicate but is classified `false` by the
code. -/
theorem C5_counterexample_uppercase_token :
    claimIsSpecificProduct c5p = true ∧ ruleIsSpecific c5p = false := by
  decide

/-- The claim C5 predicate amended where the counterexample forces it: the
model-number heuristic runs on the lowercased name, so it only fires on
four or more consecutive characters that survive lowercasing inside
`[A-Z0-9]` — in effect a run of four digits. -/
def amendedIsSpecificProduct (p : Product) : Bool :=
  let url := pyLower p.url.data
  let name := pyLower p.name.data
  let description := pyLower p.description.data
  let keywordHit := product_indicators.any (fun ind => pyIn ind.data url || pyIn ind.data name)
  let loweredToken := hasRunOfFour isUpperOrDigit name
  let wordy := decide (wordCount name ≥ 4) && name.any Char.isDigit
  let categoryHit := category_indicators.any (fun ind =>
    pyIn ind.data url || pyIn ind.data name || pyIn ind.data description)
  !categoryHit && (keywordHit || loweredToken || wordy)

def dellP : Product :=
  { name := "Dell XPS 13 9310 Laptop", url := "https://www.dell.com/xps-13-9310" }

def catP : Product :=
  { name := "Dell XPS 13 9310 Laptop", url := "https://x.com/laptops-category" }

/-- C5 amended: with the model-number heuristic applied to the lowercased
name, the classifier is exactly the claimed predicate, and both concrete
examples of the claim behave as stated. -/
theorem C5_amended_lowercased_heuristic :
    (∀ p : Product, ruleIsSpecific p = amendedIsSpecificProduct p) ∧
    ruleIsSpecific dellP = true ∧ ruleIsSpecific catP = false := by
  refine ⟨fun p => ?_, by decide, by decide⟩
  unfold ruleIsSpecific amendedIsSpecificProduct
  simp only [wordCount]

/-! ### Claim C6 -/

def c6budget100 : Requirement := { budget := "$100" }

def c6budget90 : Requirement := { budget := "$90" }

def c6budget3 : Requirement := { budget := "$3" }

def c6product : Product := { name := "n", price := "$119.99" }

def c6boundary : Product := { name := "n", price := "$3.60" }

/-- C6 counterexample: price `"$3.60"` against budget `"$3"` has exact
relative deviation exactly 20 percent, so the claim requires
`price_match = true`; the source computes
`abs(3.6 - 3.0) / 3.0 = 0.20000000000000004 > 0.2` in IEEE doubles and
leaves the flag `False`.  The conjuncts pin down the parsed exact values,
the exact deviation being within tolerance, and the flag the code
computes. -/
theorem C6_counterexample_ieee_boundary :
    pyFloat (keepDigitsDots c6boundary.price.data) = some (18/5) ∧
    pyFloat (keepDigitsDots c6budget3.budget.data) = some 3 ∧
    |(18:ℚ)/5 - 3| / 3 ≤ 2/10 ∧
    rulePriceMatch c6budget3 c6boundary = false := by
  refine ⟨by decide, by decide, by decide, by decide⟩

/-- C6 amended: when both strings parse, the flag is true iff the IEEE
binary64 computation accepts, that is, iff the double-rounded quotient
`abs(price - budget) / budget` is at most the double nearest 0.2 — the
claimed 20-percent rule up to double rounding at each step.  Both
concrete instances of the claim survive: `$119.99` against `"$100"`
(deviation 19.99 percent) matches and against `"$90"` (deviation 33
percent) does not. -/
theorem C6_amended_ieee_tolerance :
    (∀ (req : Requirement) (p : Product) (pp bv : ℚ),
      pyFloat (keepDigitsDots p.price.data) = some pp →
      pyFloat (keepDigitsDots req.budget.data) = some bv →
      roundDouble bv ≠ 0 →
      (rulePriceMatch req p = true ↔
        roundDouble (|roundDouble pp - roundDouble bv| / roundDouble bv) ≤
          roundDouble (2/10))) ∧
    rulePriceMatch c6budget100 c6product = true ∧
    rulePriceMatch c6budget90 c6product = false := by
  refine ⟨?_, by decide, by decide⟩
  intro req p pp bv hp hb hbz
  have hbne : req.budget ≠ "" := by
    intro h
    have hnone : pyFloat (keepDigitsDots ("" : String).data) = none := by decide
    rw [h, hnone] at hb
    exact Option.noConfusion hb
  have hpne : p.price ≠ "Price not specified" := by
    intro h
    have hnone : pyFloat (keepDigitsDots ("Price not specified" : String).data) = none := by
      decide
    rw [h, hnone] at hp
    exact Option.noConfusion hp
  unfold rulePriceMatch
  rw [if_pos ⟨hbne, hpne⟩]
  simp only [hp, hb, if_neg hbz]
  simp [decide_eq_true_iff]

/-- C6 witness: the general iff applied at the surviving `$119.99` versus
`"$100"` instance and at the rejected exact-boundary instance. -/
theorem C6_amended_witness :
    rulePriceMatch c6budget100 c6product = true ∧
    rulePriceMatch c6budget3 c6boundary = false := by
  constructor
  · exact (C6_amended_ieee_tolerance.1 c6budget100 c6product (11999/100) 100
      (by decide) (by decide) (by decide)).mpr (by decide)
  · have h := C6_amended_ieee_tolerance.1 c6budget3 c6boundary (18/5) 3
      (by decide) (by decide) (by decide)
    have hq : ¬ roundDouble (|roundDouble ((18:ℚ)/5) - roundDouble (3:ℚ)| /
        roundDouble (3:ℚ)) ≤ roundDouble (2/10) := by decide
    exact Bool.eq_false_iff.mpr (fun hbb => hq (h.mp hbb))
/-! ### Claim C7 -/

theorem scanFirst_some_suffix {m : List Char → Option α} :
    ∀ {text : List Char} {r : α}, scanFirst m text = some r →
      ∃ s, s <:+ text ∧ m s = some r := by
  intro text
  induction text with
  | nil => exact fun h => ⟨[], List.suffix_rfl, h⟩
  | cons c cs ih =>
    intro r h
    unfold scanFirst at h
    cases hm : m (c :: cs) with
    | some v =>
      rw [hm] at h
      exact ⟨c :: cs, List.suffix_rfl, hm.trans h⟩
    | none =>
      rw [hm] at h
      obtain ⟨s, hs, hms⟩ := ih h
      exact ⟨s, hs.trans (List.suffix_cons c cs), hms⟩

theorem matchAmountAt_has_digit {cs : List Char} {a : List Char}
    (h : matchAmountAt cs = some a) : ∃ c ∈ cs, c.isDigit = true := by
  cases cs with
  | nil => simp [matchAmountAt] at h
  | cons c rest =>
    cases hd : c.isDigit with
    | false =>
      unfold matchAmountAt at h
      rw [List.takeWhile_cons] at h
      simp [hd] at h
    | true => exact ⟨c, List.mem_cons_self c rest, hd⟩

theorem dropCI_suffix : ∀ (pre cs r : List Char), dropCI pre cs = some r → r <:+ cs := by
  intro pre
  induction pre with
  | nil =>
    intro cs r h
    unfold dropCI at h
    cases h
    exact List.suffix_rfl
  | cons p ps ih =>
    intro cs r h
    cases cs with
    | nil => exact absurd h (by simp [dropCI])
    | cons c rest =>
      unfold dropCI at h
      split at h
      · exact (ih rest r h).trans (List.suffix_cons c rest)
      · exact absurd h (by simp)

theorem matchOptDollarAmount_has_digit {cs a : List Char}
    (h : matchOptDollarAmount cs = some a) : ∃ c ∈ cs, c.isDigit = true := by
  unfold matchOptDollarAmount at h
  split at h
  · rename_i r
    obtain ⟨c, hc, hd⟩ := matchAmountAt_has_digit h
    exact ⟨c, List.mem_cons_of_mem '$' hc, hd⟩
  · exact matchAmountAt_has_digit h

theorem matchPrefixedAmount_has_digit {pre cs a : List Char}
    (h : matchPrefixedAmount pre cs = some a) : ∃ c ∈ cs, c.isDigit = true := by
  unfold matchPrefixedAmount at h
  split at h
  · exact absurd h (by simp)
  · rename_i r hdrop
    obtain ⟨c, hc, hd⟩ := matchOptDollarAmount_has_digit h
    have h1 : c ∈ r := List.dropWhile_sublist isPySpace |>.subset hc
    exact ⟨c, (dropCI_suffix pre cs r hdrop).subset h1, hd⟩

theorem matchDollarAmount_has_digit {cs a : List Char}
    (h : matchDollarAmount cs = some a) : ∃ c ∈ cs, c.isDigit = true := by
  unfold matchDollarAmount at h
  split at h
  · rename_i r
    obtain ⟨c, hc, hd⟩ := matchAmountAt_has_digit h
    exact ⟨c, List.mem_cons_of_mem '$' hc, hd⟩
  · exact absurd h (by simp)

theorem scanFirst_none_of_no_digit {text : List Char}
    (hnod : ∀ c ∈ text, c.isDigit = false)
    (m : List Char → Option (List Char))
    (hm : ∀ s a, m s = some a → ∃ c ∈ s, c.isDigit = true) :
    scanFirst m text = none := by
  cases hscan : scanFirst m text with
  | none => rfl
  | some r =>
    obtain ⟨s, hs, hms⟩ := scanFirst_some_suffix hscan
    obtain ⟨c, hc, hd⟩ := hm s r hms
    rw [hnod c (hs.subset hc)] at hd
    exact Bool.noConfusion hd

/-- C7: the deterministic price extraction runs the six patterns in
priority order over the description-plus-title text, normalizes the first
match to a dollar amount, and yields the sentinel when no pattern
matches.  Conjuncts: the concrete `"Price: $1,299.00"` example, a
priority example in which the AUD pattern beats a later dollar match, the
concatenation contract, and the general no-digit (hence
no-currency-marker) sentinel case. -/
theorem C7_price_extraction :
    extract_price_with_patterns ("Price: $1,299.00".data) = "$1,299.00" ∧
    extract_price_with_patterns ("AUD 50 or $99".data) = "$50" ∧
    (∀ r : RawHit, (extract_with_rules r).price =
      extract_price_with_patterns (r.description.data ++ ' ' :: r.title.data)) ∧
    (∀ text : List Char, (∀ c ∈ text, c.isDigit = false) →
      extract_price_with_patterns text = "Price not specified") := by
  refine ⟨by decide, by decide, fun r => rfl, fun text hnod => ?_⟩
  unfold extract_price_with_patterns
  rw [scanFirst_none_of_no_digit hnod _ (fun s a h => matchPrefixedAmount_has_digit h),
      scanFirst_none_of_no_digit hnod _ (fun s a h => matchDollarAmount_has_digit h),
      scanFirst_none_of_no_digit hnod _ (fun s a h => matchPrefixedAmount_has_digit h),
      scanFirst_none_of_no_digit hnod _ (fun s a h => matchPrefixedAmount_has_digit h),
      scanFirst_none_of_no_digit hnod _ (fun s a h => matchPrefixedAmount_has_digit h),
      scanFirst_none_of_no_digit hnod _ (fun s a h => matchPrefixedAmount_has_digit h)]
  rfl

/-- C7 witness: the no-currency-marker description of the claim. -/
theorem C7_witness :
    extract_price_with_patterns ("no currency marker here".data) = "Price not specified" :=
  C7_price_extraction.2.2.2 ("no currency marker here".data) (by decide)

/-! ### Claim C8 -/

theorem generate_queries_ok (qs : List String) (info : Requirement) :
    generate_queries (Except.ok qs) info = Except.ok qs := by
  cases h : qs.isEmpty <;> simp [generate_queries, h]

theorem estimateStep_score (est : Product → Except Unit String) (p : Product) :
    prodScore (estimateStep est p) = prodScore p := by
  unfold estimateStep
  split
  · split
    · split <;> rfl
    · rfl
  · rfl

theorem filter_and_rank_llm_sorted (so : Product → Except Unit String)
    (ps : List Product) (req : Requirement) :
    (filter_and_rank so ps req true).Pairwise
      (fun a b => prodScore b ≤ prodScore a) := by
  unfold filter_and_rank
  split
  · exact List.Pairwise.nil
  · simp only [if_true]
    exact pySortedDesc_pairwise prodScore _

/-- C8: every successfully returned pipeline result has at most five
items and is non-increasing in `relevance_score`; the sort the pipeline
uses is stable (ties keep input order, expressed as filter-invariance per
key value); and a run whose search capability yields no hits for any
query returns the empty sequence rather than raising. -/
theorem C8_pipeline_output_contract :
    (∀ (o : Oracles) (info : Requirement) (out : List Product),
      pipeline_search o info = Except.ok out →
        out.length ≤ 5 ∧ out.Pairwise (fun a b => prodScore b ≤ prodScore a)) ∧
    (∀ (key : Product → ℚ) (xs : List Product),
      (pySortedDesc key xs).Pairwise (fun a b => key b ≤ key a) ∧
      ∀ q, (pySortedDesc key xs).filter (fun a => key a == q) =
        xs.filter (fun a => key a == q)) ∧
    (∀ (o : Oracles) (info : Requirement) (qs : List String),
      o.queryGen = Except.ok qs → (∀ q n, o.provider q n = []) →
      pipeline_search o info = Except.ok []) := by
  refine ⟨?_, ?_, ?_⟩
  · intro o info out h
    unfold pipeline_search at h
    cases hq : o.queryGen with
    | error e =>
      rw [hq] at h
      simp [generate_queries] at h
    | ok qs =>
      rw [hq, generate_queries_ok] at h
      injection h with h
      subst h
      constructor
      · rw [List.length_take]
        exact min_le_left _ _
      · refine List.Pairwise.sublist (List.take_sublist _ _) ?_
        unfold estimate_missing_prices
        refine List.pairwise_map.mpr ?_
        refine (filter_and_rank_llm_sorted o.score _ info).imp ?_
        intro a b hab
        rw [estimateStep_score, estimateStep_score]
        exact hab
  · intro key xs
    exact ⟨pySortedDesc_pairwise key xs, fun q => filter_pySortedDesc key q xs⟩
  · intro o info qs hq hprov
    unfold pipeline_search
    rw [hq, generate_queries_ok]
    have hw : web_search o.provider qs = [] := by
      unfold web_search
      simp [hprov]
    show Except.ok ((estimate_missing_prices o.estimate
      (filter_and_rank o.score (extract_info (web_search o.provider qs))
        info true)).take 5) = Except.ok []
    rw [hw]
    rfl

def c8oracles : Oracles :=
  { queryGen := Except.ok ["q"],
    provider := fun _ _ => [],
    score := fun _ => Except.error (),
    estimate := fun _ => Except.error () }

def c8req : Requirement := { product_type := "laptop" }

/-- C8 witness: a concrete run with an empty search capability. -/
theorem C8_witness :
    pipeline_search c8oracles c8req = Except.ok [] ∧ ([] : List Product).length ≤ 5 := by
  have h := C8_pipeline_output_contract.2.2 c8oracles c8req ["q"] rfl (fun _ _ => rfl)
  exact ⟨h, (C8_pipeline_output_contract.1 c8oracles c8req [] h).1⟩

/-! ### Claim C9 -/

/-- C9: the price-estimation pass removes nothing and reorders nothing
(the output is the input, position by position); at each position every
field other than `price` and `is_estimated_price` is unchanged; items
whose price is not the `"Price not specified"` sentinel are returned
untouched; and for sentinel-priced items either the estimate succeeds
(price becomes the normalized dollar amount, `is_estimated_price` is set)
or it fails by no currency-shaped match or a capability exception (price
becomes `"Price not available"`, `is_estimated_price` is left as it
was, i.e. unset). -/
theorem C9_price_estimation_frame :
    (∀ (est : Product → Except Unit String) (ps : List Product),
      (estimate_missing_prices est ps).length = ps.length) ∧
    (∀ (est : Product → Except Unit String) (ps : List Product) (i : Nat)
      (p q : Product), ps[i]? = some p →
      (estimate_missing_prices est ps)[i]? = some q →
      (q.name = p.name ∧ q.url = p.url ∧ q.source = p.source ∧
       q.description = p.description ∧ q.key_specs = p.key_specs ∧
       q.delivery_time = p.delivery_time ∧ q.relevance_score = p.relevance_score ∧
       q.ranking_reason = p.ranking_reason ∧
       q.is_specific_product = p.is_specific_product ∧
       q.product_relevance = p.product_relevance ∧ q.price_match = p.price_match ∧
       q.location_match = p.location_match ∧
       q.requirements_match = p.requirements_match ∧
       q.overall_quality = p.overall_quality) ∧
      (p.price ≠ "Price not specified" → q = p) ∧
      (p.price = "Price not specified" →
        ((∃ resp tok, est p = Except.ok resp ∧
            scanFirst matchCurrencyToken resp.data = some tok ∧
            q.price = normalizeDollar tok ∧ q.is_estimated_price = some true) ∨
         (q.price = "Price not available" ∧
          q.is_estimated_price = p.is_estimated_price)))) := by
  constructor
  · intro est ps
    exact List.length_map ps (estimateStep est)
  · intro est ps i p q hp hq
    unfold estimate_missing_prices at hq
    rw [List.getElem?_map, hp] at hq
    replace hq := Option.some.inj hq
    subst hq
    unfold estimateStep
    split
    · rename_i hc
      split
      · rename_i resp ho
        split
        · rename_i tok hs
          exact ⟨⟨rfl, rfl, rfl, rfl, rfl, rfl, rfl, rfl, rfl, rfl, rfl, rfl, rfl, rfl⟩,
            fun hne => absurd hc hne,
            fun _ => Or.inl ⟨resp, tok, ho, hs, rfl, rfl⟩⟩
        · rename_i hs
          exact ⟨⟨rfl, rfl, rfl, rfl, rfl, rfl, rfl, rfl, rfl, rfl, rfl, rfl, rfl, rfl⟩,
            fun hne => absurd hc hne,
            fun _ => Or.inr ⟨rfl, rfl⟩⟩
      · rename_i e ho
        exact ⟨⟨rfl, rfl, rfl, rfl, rfl, rfl, rfl, rfl, rfl, rfl, rfl, rfl, rfl, rfl⟩,
          fun hne => absurd hc hne,
          fun _ => Or.inr ⟨rfl, rfl⟩⟩
    · rename_i hc
      exact ⟨⟨rfl, rfl, rfl, rfl, rfl, rfl, rfl, rfl, rfl, rfl, rfl, rfl, rfl, rfl⟩,
        fun _ => rfl, fun hcc => absurd hcc hc⟩

def c9est : Product → Except Unit String := fun _ => Except.ok "about $12.50 retail"

def c9p : Product := { name := "n", price := "Price not specified", url := "u" }

def c9q : Product :=
  { name := "n", price := "$12.50", url := "u", is_estimated_price := some true }

def c9ps : List Product := [c9p]

/-- C9 witness: one sentinel-priced product and a successful estimate. -/
theorem C9_witness :
    (estimate_missing_prices c9est c9ps).length = c9ps.length ∧
    c9q.name = c9p.name ∧
    ((∃ resp tok, c9est c9p = Except.ok resp ∧
        scanFirst matchCurrencyToken resp.data = some tok ∧
        c9q.price = normalizeDollar tok ∧ c9q.is_estimated_price = some true) ∨
     (c9q.price = "Price not available" ∧
      c9q.is_estimated_price = c9p.is_estimated_price)) := by
  have h := C9_price_estimation_frame.2 c9est c9ps 0 c9p c9q (by decide) (by decide)
  exact ⟨C9_price_estimation_frame.1 c9est c9ps, h.1.1, h.2.2 rfl⟩

/-! ### Claim C10 -/

theorem score_ge_six (req : Requirement) (p : Product)
    (h1 : ruleIsSpecific p = true) (h2 : ruleRelevance req p = true) :
    6/10 ≤ ruleScore req p := by
  have h3 : (0:ℚ) ≤ (if rulePriceMatch req p then (2:ℚ)/10 else 0) := by
    split <;> norm_num
  have h4 : (0:ℚ) ≤ (if ruleLocationMatch req p then (1:ℚ)/10 else 0) := by
    split <;> norm_num
  have h5 : (0:ℚ) ≤ (if ruleReqsMatch req p then (1:ℚ)/10 else 0) := by
    split <;> norm_num
  simp only [ruleScore, h1, h2, if_true]
  linarith

/-- C10: every product retained by the rule-based strategy has a score of
at least 0.6 (the two mandatory flags alone contribute 0.3 + 0.3), its
quality tier is never `low`, and the explicit 0.3 retention threshold is
never binding: dropping it from the retention test leaves the output of
`_filter_and_rank_with_rules` unchanged. -/
theorem C10_retained_products_scoring :
    (∀ (req : Requirement) (p : Product),
      ruleIsSpecific p = true → ruleRelevance req p = true →
        6/10 ≤ ruleScore req p) ∧
    (∀ (req : Requirement) (ps : List Product) (q : Product),
      q ∈ filterRankRules req ps →
        6/10 ≤ prodScore q ∧ q.overall_quality ≠ some "low") ∧
    (∀ (req : Requirement) (ps : List Product),
      filterRankRules req ps = pySortedDesc prodScore
        (ps.filterMap (fun p =>
          if ruleIsSpecific p = true ∧ ruleRelevance req p = true
          then some (applyRuleEval req p) else none))) := by
  refine ⟨score_ge_six, ?_, ?_⟩
  · intro req ps q hq
    obtain ⟨p, hp, rfl, h1, h2, h3⟩ := (mem_filterRankRules req ps q).mp hq
    have h6 := score_ge_six req p h1 h2
    constructor
    · exact h6
    · intro heq
      have hlow : ruleTier req p = "low" := by
        have := congrArg (fun o => o.getD "") heq
        simpa [applyRuleEval] using this
      have := (ruleTier_low_iff req p).mp hlow
      linarith
  · intro req ps
    unfold filterRankRules
    congr 1
    refine List.filterMap_congr ?_
    intro p _
    by_cases h1 : ruleIsSpecific p = true
    · by_cases h2 : ruleRelevance req p = true
      · have h6 := score_ge_six req p h1 h2
        rw [if_pos ⟨h1, h2, by linarith⟩, if_pos ⟨h1, h2⟩]
      · rw [if_neg (fun hc => h2 hc.2.1), if_neg (fun hc => h2 hc.2)]
    · rw [if_neg (fun hc => h1 hc.1), if_neg (fun hc => h1 hc.1)]

def c10req : Requirement := { product_type := "item" }

def c10p : Product := { name := "good item 1234 thing", url := "u" }

/-- C10 witness at a concrete retained product. -/
theorem C10_witness :
    6/10 ≤ ruleScore c10req c10p ∧
    6/10 ≤ prodScore (applyRuleEval c10req c10p) ∧
    (applyRuleEval c10req c10p).overall_quality ≠ some "low" := by
  have hmem : applyRuleEval c10req c10p ∈ filterRankRules c10req [c10p] :=
    (mem_filterRankRules c10req [c10p] _).mpr
      ⟨c10p, by simp, rfl, by decide, by decide, by decide⟩
  have h := C10_retained_products_scoring.2.1 c10req [c10p] _ hmem
  exact ⟨C10_retained_products_scoring.1 c10req c10p (by decide) (by decide), h.1, h.2⟩

end AesAgents
